import Mathlib

/-!
Shallow embedding of the rclone Cloudinary backend (backend/cloudinary/cloudinary.go,
the version with the ranged-download retry loop and UpdateModeOption).

Go strings are modelled as lists of unicode scalar values (runes): both ampersand
substitutions in the codec replace a single rune by a single rune, and in valid
UTF-8 the byte sequences of those runes occur only as those runes, so Go
strings.Replace on them coincides with a per-rune map.

The remote Cloudinary API (Admin.SubFolders, Admin.AssetsByAssetFolder,
Admin.Search, Upload.Upload, the HTTP client) is an external collaborator; it is
modelled as oracle functions passed to each operation, returning the structured
result or a transport error, exactly as the Go code receives them.
-/

/-- Go strings at rune level. -/
abbrev GoStr := List Char

/-- Fullwidth ampersand U+FF06, the placeholder rune used by the codec. -/
def fullAmp : Char := '＆'

/-- strings.Replace(s, "&", "＆", -1): per-rune map (see header comment). -/
def ampEnc (s : GoStr) : GoStr :=
  s.map (fun c => if c = '&' then fullAmp else c)

/-- strings.Replace(s, "＆", "&", -1): per-rune map (see header comment). -/
def ampDec (s : GoStr) : GoStr :=
  s.map (fun c => if c = fullAmp then '&' else c)

/-- The configurable rclone encoder (lib/encoder.MultiEncoder is outside src/;
modelled from the spec: a configurable encoder with the round-trip law of §4.1,
abstracted as its four methods). -/
structure Encoder where
  fromStandardPath : GoStr → GoStr
  fromStandardName : GoStr → GoStr
  toStandardPath : GoStr → GoStr
  toStandardName : GoStr → GoStr

/-- The identity encoder: an Encoder whose four methods change nothing.  On every
string built from characters that the backend's default encoding flags leave
untouched (in particular plain letters, the ampersand and the fullwidth
ampersand U+FF06), the real default MultiEncoder acts exactly like this. -/
def idEnc : Encoder :=
  { fromStandardPath := id, fromStandardName := id,
    toStandardPath := id, toStandardName := id }

/-- Options (config fields used by the core logic). -/
structure Options where
  uploadPreset : GoStr
  enc : Encoder
  optimisticSearch : Bool

/-- Fs: the remote cloudinary server handle (client handles dropped; they are
the oracles of each operation). -/
structure Fs where
  name : GoStr
  root : GoStr
  opt : Options

/-- Object describes a cloudinary object. -/
structure Object where
  fsRef : Fs
  remote : GoStr
  size : Int
  modTime : Nat
  url : GoStr
  md5sum : GoStr

/-- Fs.FromStandardPath. -/
def Fs.fromStandardPath (f : Fs) (s : GoStr) : GoStr :=
  ampEnc (f.opt.enc.fromStandardPath s)

/-- Fs.FromStandardName. -/
def Fs.fromStandardName (f : Fs) (s : GoStr) : GoStr :=
  ampEnc (f.opt.enc.fromStandardName s)

/-- Fs.ToStandardPath. -/
def Fs.toStandardPath (f : Fs) (s : GoStr) : GoStr :=
  ampDec (f.opt.enc.toStandardPath s)

/-- Fs.ToStandardName. -/
def Fs.toStandardName (f : Fs) (s : GoStr) : GoStr :=
  ampDec (f.opt.enc.toStandardName s)

/-! Go standard library path functions (path.Clean, path.Join, path.Dir,
path.Base), segment-based but equivalent formulation of path.Clean. -/

/-- Split a rune list at every slash (strings.Split(s, "/")); never returns []. -/
def splitSlash (p : GoStr) : List GoStr := p.splitOn '/'

/-- Join segments with slashes (inverse of splitSlash). -/
def joinSegs (segs : List GoStr) : GoStr := List.intercalate ['/'] segs

/-- One step of path.Clean's element processing, on a stack whose head is the
most recent kept segment. -/
def cleanStep (rooted : Bool) (stack : List GoStr) (seg : GoStr) : List GoStr :=
  if seg = [] ∨ seg = ['.'] then stack
  else if seg = ['.', '.'] then
    match stack with
    | top :: rest => if top = ['.', '.'] then seg :: stack else rest
    | [] => if rooted then [] else [seg]
  else seg :: stack

/-- path.Clean's segment normalisation: drop empty and dot segments, resolve
dot-dot against the stack (dot-dot at the root of a rooted path vanishes,
at the start of a relative path it is kept). -/
def normSegs (rooted : Bool) (segs : List GoStr) : List GoStr :=
  (segs.foldl (cleanStep rooted) []).reverse

/-- path.Clean. -/
def pathClean (p : GoStr) : GoStr :=
  if p = [] then ['.']
  else
    let rooted := p.head? = some '/'
    let body := joinSegs (normSegs rooted (splitSlash p))
    if rooted then '/' :: body
    else if body = [] then ['.'] else body

/-- path.Join of two elements: empty elements are dropped, the rest joined with
a slash and cleaned; all-empty input gives the empty path. -/
def pathJoin (a b : GoStr) : GoStr :=
  if a = [] then
    if b = [] then [] else pathClean b
  else if b = [] then pathClean a
  else pathClean (a ++ '/' :: b)

/-- path.Dir: everything up to and including the final slash, cleaned;
no slash gives the single dot. -/
def pathDir (p : GoStr) : GoStr :=
  pathClean ((p.reverse.dropWhile (fun c => c ≠ '/')).reverse)

/-- path.Base: strip trailing slashes, take the part after the final slash;
empty input gives a dot, all-slash input gives a slash. -/
def pathBase (p : GoStr) : GoStr :=
  if p = [] then ['.']
  else
    let p1 := (p.reverse.dropWhile (fun c => c = '/')).reverse
    let b := (p1.reverse.takeWhile (fun c => c ≠ '/')).reverse
    if b = [] then ['/'] else b

/-- cldPathDir: Cloudinary should not see a trailing dot if there is no path. -/
def cldPathDir (somePath : GoStr) : GoStr :=
  if somePath = [] ∨ somePath = ['.'] then somePath
  else
    let dir := pathDir somePath
    if dir = ['.'] then [] else dir

/-- Fs.FromStandardFullPath: encoded root joined with the encoded dir. -/
def Fs.fromStandardFullPath (f : Fs) (dir : GoStr) : GoStr :=
  pathJoin (f.fromStandardPath f.root) (f.fromStandardPath dir)

/-- strings.TrimPrefix. -/
def trimPfx (s pre : GoStr) : GoStr :=
  if pre.isPrefixOf s then s.drop pre.length else s

/-! Directory listing (Fs.List).  The two Admin endpoints are oracles keyed by
(folder, cursor); the empty cursor stands for an unset NextCursor parameter,
which the remote treats identically.  A transport error is None.  The loops are
given fuel (an embedding artifact for the unbounded Go for-loops); every theorem
either supplies enough fuel or quantifies over it. -/

/-- One sub-folder record (we keep the Path field the code reads). -/
structure SubFolder where
  path : GoStr
deriving DecidableEq

/-- Result of Admin.SubFolders: folders, embedded error message, next cursor. -/
structure FolderResult where
  folders : List SubFolder
  errorMessage : GoStr
  nextCursor : GoStr

/-- One asset record as read by the listing code. -/
structure AssetRec where
  displayName : GoStr
  bytes : Nat
  createdAt : Nat
  secureURL : GoStr

/-- Result of Admin.AssetsByAssetFolder. -/
structure AssetResult where
  assets : List AssetRec
  nextCursor : GoStr

/-- A directory entry: fs.NewDir or an Object. -/
inductive DirEntry where
  | dir (path : GoStr) (modTime : Nat)
  | obj (o : Object)

/-- Listing failures. outOfFuel is the embedding artifact for a non-terminating
cursor chain; the Go code would loop forever there. -/
inductive ListErr where
  | outOfFuel
  | transport
  | dirNotFound
  | logical
deriving DecidableEq

/-- The sentinel error-message stem matched by the Go code,
Can(U+0027)t find folder with path. -/
def cantFindSentinel : GoStr :=
  ['C', 'a', 'n', Char.ofNat 39, 't', ' ', 'f', 'i', 'n', 'd', ' ',
   'f', 'o', 'l', 'd', 'e', 'r', ' ', 'w', 'i', 't', 'h', ' ', 'p', 'a', 't', 'h']

/-- Body of the folder loop for one returned folder record: decode the path
relative to the remote prefix, take its first segment as the child-directory
name, and append a Dir entry unless that name was already emitted. -/
def folderStep (f : Fs) (dir pfx : GoStr) (now : Nat)
    (st : List DirEntry × List GoStr) (folder : SubFolder) :
    List DirEntry × List GoStr :=
  let rel := f.toStandardPath (trimPfx folder.path pfx)
  let dirName := (splitSlash rel).headD []
  if dirName ∈ st.2 then st
  else (st.1 ++ [DirEntry.dir (pathJoin dir dirName) now], st.2 ++ [dirName])

/-- The first loop of Fs.List: page through Admin.SubFolders.  Returns the
accumulated entries, the emitted-name set, and the value the Go variable
nextCursor holds when the loop breaks (the cursor used for the final page
request — the Go code does not reset it before the asset loop). -/
def listFoldersLoop (f : Fs) (folderO : GoStr → Option FolderResult)
    (dir pfx : GoStr) (now : Nat) :
    Nat → GoStr → List DirEntry → List GoStr →
    Except ListErr (List DirEntry × List GoStr × GoStr)
  | 0, _, _, _ => .error .outOfFuel
  | fuel + 1, nextCursor, entries, dirs =>
    match folderO nextCursor with
    | none => .error .transport
    | some results =>
      if results.errorMessage ≠ [] then
        if cantFindSentinel.isPrefixOf results.errorMessage then .error .dirNotFound
        else .error .logical
      else
        let st := results.folders.foldl (folderStep f dir pfx now) (entries, dirs)
        if results.nextCursor = [] then .ok (st.1, st.2, nextCursor)
        else listFoldersLoop f folderO dir pfx now fuel results.nextCursor st.1 st.2

/-- Object built for one listed asset: decoded display name (joined under dir
when dir is nonempty), size, creation time, URL; no md5sum is set here. -/
def assetEntry (f : Fs) (dir : GoStr) (a : AssetRec) : Object :=
  let remote := if dir = [] then f.toStandardName a.displayName
                else pathJoin dir (f.toStandardName a.displayName)
  { fsRef := f, remote := remote, size := (a.bytes : Int), modTime := a.createdAt,
    url := a.secureURL, md5sum := [] }

/-- The second loop of Fs.List: page through Admin.AssetsByAssetFolder,
starting from whatever cursor value is passed in. -/
def listAssetsLoop (f : Fs) (assetO : GoStr → Option AssetResult) (dir : GoStr) :
    Nat → GoStr → List DirEntry → Except ListErr (List DirEntry)
  | 0, _, _ => .error .outOfFuel
  | fuel + 1, nextCursor, entries =>
    match assetO nextCursor with
    | none => .error .transport
    | some results =>
      let entries := entries ++ results.assets.map (fun a => DirEntry.obj (assetEntry f dir a))
      if results.nextCursor = [] then .ok entries
      else listAssetsLoop f assetO dir fuel results.nextCursor entries

/-- Fs.List: compute the remote prefix (with trailing slash when nonempty), run
the folder loop to completion, then run the asset loop — whose starting cursor
is the Go nextCursor variable left over from the folder loop. -/
def cldList (f : Fs) (folderO : GoStr → GoStr → Option FolderResult)
    (assetO : GoStr → GoStr → Option AssetResult) (now fuel : Nat) (dir : GoStr) :
    Except ListErr (List DirEntry) :=
  let rp0 := f.fromStandardFullPath dir
  let rp := if rp0 ≠ [] ∧ rp0.getLast? ≠ some '/' then rp0 ++ ['/'] else rp0
  match listFoldersLoop f (folderO rp) dir rp now fuel [] [] [] with
  | .error e => .error e
  | .ok (entries, _, nextCursor) => listAssetsLoop f (assetO rp) dir fuel nextCursor entries

/-! Asset resolution (Fs.getCLDAsset).  The Search API is an oracle taking the
query expression and the call index (the Go code re-issues the identical query
on each optimistic retry; the index lets the modelled remote answer differently
over time); it returns the result struct and an err flag, as the Go call does. -/

/-- One search-API asset record (fields the backend reads). -/
structure SearchAsset where
  publicID : GoStr
  bytes : Nat
  uploadedAt : Nat
  secureURL : GoStr
  etag : GoStr
deriving DecidableEq

/-- Search result: assets plus continuation cursor. -/
structure SearchResp where
  assets : List SearchAsset
  nextCursor : GoStr
deriving DecidableEq

/-- Outcome of getCLDAsset. -/
inductive ResolveResult where
  | found (a : SearchAsset)
  | notFound
  | duplicate
deriving DecidableEq

/-- The search.Query expression fmt.Sprintf builds:
asset_folder="<encoded folder>" AND display_name="<encoded name>". -/
def searchExpr (f : Fs) (remote : GoStr) : GoStr :=
  "asset_folder=\"".toList ++ f.fromStandardFullPath (cldPathDir remote) ++
  "\" AND display_name=\"".toList ++ f.fromStandardName (pathBase remote) ++ "\"".toList

/-- Fs.getCLDAsset: search for the asset; under optimistic search an empty
result set is retried (after a 1-second sleep) while retry < 3; a transport
error or empty result set becomes NotFound; a leftover continuation cursor on
the 1-result query is the duplicate-objects error; otherwise the first asset is
returned.  Also returns the number of search calls made and the list of sleep
durations (in seconds), in order. -/
def getCLDAsset (f : Fs) (oracle : GoStr → Nat → SearchResp × Bool)
    (remote : GoStr) (retry : Nat) : ResolveResult × Nat × List Nat :=
  let r := oracle (searchExpr f remote) retry
  if h : f.opt.optimisticSearch = true ∧ r.1.assets = [] ∧ retry < 3 then
    let g := getCLDAsset f oracle remote (retry + 1)
    (g.1, g.2.1 + 1, 1 :: g.2.2)
  else if r.2 = true ∨ r.1.assets = [] then (.notFound, 1, [])
  else if r.1.nextCursor ≠ [] then (.duplicate, 1, [])
  else
    match r.1.assets with
    | a :: _ => (.found a, 1, [])
    | [] => (.notFound, 1, [])
termination_by 3 - retry
decreasing_by omega

/-! Upload (Fs.Put), download (Object.Open), update (Object.Update). -/

/-- ObjectInfo of the source being uploaded (fields the backend reads). -/
structure SrcInfo where
  remote : GoStr
  size : Int

/-- uploader.UploadParams as filled in by Put. -/
structure UploadParams where
  assetFolder : GoStr
  displayName : GoStr
  publicID : GoStr
  uploadPreset : GoStr
  overwrite : Bool
  invalidate : Bool
deriving DecidableEq

/-- Upload.Upload's result (fields the backend reads); errorMessage nonempty is
the embedded logical error payload. -/
structure UploadResult where
  bytes : Nat
  createdAt : Nat
  secureURL : GoStr
  etag : GoStr
  errorMessage : GoStr

/-- Put failures. -/
inductive PutErr where
  | cantUploadEmptyFiles
  | transport
  | logical
deriving DecidableEq

/-- The UploadParams Put builds: encoded parent folder as AssetFolder, encoded
leaf as DisplayName, the configured preset, overwrite+invalidate exactly when an
UpdateModeOption with UpdateMode set is among the options (modelled as the
updateMode flag), and PublicID = path.Join(AssetFolder, DisplayName). -/
def putParams (f : Fs) (src : SrcInfo) (updateMode : Bool) : UploadParams :=
  let folder := f.fromStandardFullPath (cldPathDir src.remote)
  let dispName := f.fromStandardName (pathBase src.remote)
  { assetFolder := folder, displayName := dispName,
    publicID := pathJoin folder dispName,
    uploadPreset := f.opt.uploadPreset,
    overwrite := updateMode, invalidate := updateMode }

/-- Fs.Put: reject a zero-size source before any remote call; otherwise invoke
the Upload oracle once with the built params (None is a transport error, a
nonempty embedded error message is a logical error) and construct the Object.
The second component is the list of upload calls issued, in order. -/
def put (f : Fs) (src : SrcInfo) (updateMode : Bool)
    (upload : UploadParams → Option UploadResult) :
    Except PutErr Object × List UploadParams :=
  if src.size = 0 then (.error .cantUploadEmptyFiles, [])
  else
    let params := putParams f src updateMode
    match upload params with
    | none => (.error .transport, [params])
    | some res =>
      if res.errorMessage ≠ [] then (.error .logical, [params])
      else (.ok { fsRef := f, remote := src.remote, size := (res.bytes : Int),
                  modTime := res.createdAt, url := res.secureURL,
                  md5sum := res.etag }, [params])

/-- An HTTP response as Object.Open reads it: the two headers (empty string =
header absent, exactly what Go's Header.Get returns) and the body, identified
by a number so distinct attempts are distinguishable. -/
structure HttpResp where
  acceptRanges : GoStr
  contentLength : GoStr
  body : Nat
deriving DecidableEq

/-- strconv.Atoi: an optional sign followed by at least one decimal digit;
anything else is an error (machine-width overflow is not modelled; no claim
exercises it). -/
def parseDigits (l : List Char) : Option Nat :=
  if l = [] then none
  else l.foldl (fun acc c =>
    acc.bind (fun n => if c.isDigit then some (n * 10 + (c.toNat - 48)) else none))
    (some 0)

/-- strconv.Atoi (see parseDigits). -/
def atoi : GoStr → Option Int
  | '+' :: rest => (parseDigits rest).map (fun n => (n : Int))
  | '-' :: rest => (parseDigits rest).map (fun n => -(n : Int))
  | s => (parseDigits s).map (fun n => (n : Int))

deriving instance DecidableEq for Except

/-- Outcome of the Open retry loop: the returned body (or the transport error),
the number of HTTP calls made, and the sleep durations in seconds, in order. -/
structure OpenOut where
  result : Except Unit Nat
  calls : Nat
  sleeps : List Nat
deriving DecidableEq

/-- The attempt loop of Object.Open (for i := 1; i <= 7; i++): call the HTTP
oracle; a transport error returns immediately; if both range headers are
present and content-length parses to the requested count, break and return this
body; otherwise (mismatch, unparsable, or headers absent) sleep i seconds and
iterate; when the loop exhausts its 7 attempts the last response's body is
returned with no error. -/
def openAttempts (oracle : Nat → Except Unit HttpResp) (count : Int) (i : Nat) :
    OpenOut :=
  match oracle i with
  | .error e => ⟨.error e, 1, []⟩
  | .ok resp =>
    if resp.acceptRanges ≠ [] ∧ resp.contentLength ≠ [] ∧
        atoi resp.contentLength = some count then
      ⟨.ok resp.body, 1, []⟩
    else if _h : i < 7 then
      let r := openAttempts oracle count (i + 1)
      ⟨r.result, r.calls + 1, i :: r.sleeps⟩
    else ⟨.ok resp.body, 1, [i]⟩
termination_by 7 - i
decreasing_by omega

/-- Object.Open on a ranged request for count bytes (the range/seek option
decoding yields count; the loop is what the claims address). -/
def objOpen (o : Object) (oracle : Nat → Except Unit HttpResp) (count : Int) :
    OpenOut :=
  openAttempts oracle count 1

/-- Object.Update: build an immutable source over this object's remote path and
the new size, force update mode, delegate to Put; on failure return the error
leaving the object untouched; on success copy size, URL and md5sum from the
fresh object but set modTime to the current time (the API returns the creation
time).  Functional state passing: returns the updated object and the error. -/
def objUpdate (o : Object) (now : Nat) (src : SrcInfo)
    (upload : UploadParams → Option UploadResult) : Object × Option PutErr :=
  let srcImmutable : SrcInfo := { remote := o.remote, size := src.size }
  match put o.fsRef srcImmutable true upload with
  | (.error e, _) => (o, some e)
  | (.ok uo, _) =>
    ({ o with size := uo.size, modTime := now, url := uo.url, md5sum := uo.md5sum },
     none)

/-! Concrete fixtures used by witnesses and counterexamples.  The identity
encoder is faithful on all strings these fixtures feed it (see idEnc). -/

/-- A backend handle with empty root, identity inner encoder, optimistic
search disabled. -/
def f0 : Fs :=
  { name := "cld".toList, root := [],
    opt := { uploadPreset := [], enc := idEnc, optimisticSearch := false } }

/-- Same as f0 with optimistic search enabled. -/
def fOpt : Fs := { f0 with opt := { f0.opt with optimisticSearch := true } }

/-- A concrete object handle (Open ignores its fields; the URL is carried by
the oracle). -/
def oDemo : Object :=
  { fsRef := f0, remote := "a/n".toList, size := 3, modTime := 50,
    url := "u".toList, md5sum := "m".toList }

/-- A response on which the Open loop does not break: it is not the case that
both range headers are present and content-length parses to the requested
count. -/
def noBreak (count : Int) (r : HttpResp) : Prop :=
  ¬(r.acceptRanges ≠ [] ∧ r.contentLength ≠ [] ∧ atoi r.contentLength = some count)

/-- A path segment that path.Clean keeps verbatim: nonempty and neither dot
nor dot-dot. -/
def plainSeg (s : GoStr) : Prop :=
  s ≠ [] ∧ s ≠ ['.'] ∧ s ≠ ['.', '.']

/-- A relative path already in cleaned form: every slash-separated segment is
plain (this rules out the empty path, a leading or trailing slash, and double
slashes). -/
def plainRel (p : GoStr) : Prop :=
  ∀ s ∈ splitSlash p, plainSeg s

instance (s : GoStr) : Decidable (plainSeg s) := by
  unfold plainSeg; infer_instance

instance (p : GoStr) : Decidable (plainRel p) := by
  unfold plainRel; exact List.decidableBAll _ _

/-! Theorems. -/

/-- Decoding the ampersand substitution undoes encoding it, exactly on strings
free of the placeholder rune. -/
theorem ampDec_ampEnc (s : GoStr) (hs : fullAmp ∉ s) : ampDec (ampEnc s) = s := by
  induction s with
  | nil => rfl
  | cons c cs ih =>
    have h1 : c ≠ fullAmp := fun h => hs (h ▸ List.mem_cons_self c cs)
    have h2 : fullAmp ∉ cs := fun h => hs (List.mem_cons_of_mem c h)
    have tail := ih h2
    have hhead : (if (if c = '&' then fullAmp else c) = fullAmp then '&'
        else if c = '&' then fullAmp else c) = c := by
      by_cases hc : c = '&'
      · subst hc; decide
      · simp [hc, h1]
    simp only [ampEnc, ampDec, List.map_cons] at tail ⊢
    rw [hhead, tail]

/-- Claim C2, counterexample: on the one-rune string U+FF06 — a character the
codec may emit — the round trip does not return the input: the placeholder is
decoded to a plain ampersand.  (The default encoder configuration does not
touch U+FF06, so the identity inner encoder is faithful here.) -/
theorem C2_roundtrip_cex :
    f0.toStandardPath (f0.fromStandardPath [fullAmp]) ≠ [fullAmp] := by decide

/-- Claim C2 as amended: for every string s containing no fullwidth-ampersand
placeholder U+FF06, and an inner encoder that round-trips and commutes with the
ampersand substitution (as the default configuration does on such strings),
decoding the encoding of s returns s for both the path and the name codec. -/
theorem C2_roundtrip_amended (f : Fs) (s : GoStr)
    (hps : ∀ x, f.opt.enc.toStandardPath (f.opt.enc.fromStandardPath x) = x)
    (hpc : ∀ x, f.opt.enc.toStandardPath (ampEnc x) = ampEnc (f.opt.enc.toStandardPath x))
    (hns : ∀ x, f.opt.enc.toStandardName (f.opt.enc.fromStandardName x) = x)
    (hnc : ∀ x, f.opt.enc.toStandardName (ampEnc x) = ampEnc (f.opt.enc.toStandardName x))
    (hs : fullAmp ∉ s) :
    f.toStandardPath (f.fromStandardPath s) = s ∧
    f.toStandardName (f.fromStandardName s) = s := by
  constructor
  · show ampDec (f.opt.enc.toStandardPath (ampEnc (f.opt.enc.fromStandardPath s))) = s
    rw [hpc, hps, ampDec_ampEnc s hs]
  · show ampDec (f.opt.enc.toStandardName (ampEnc (f.opt.enc.fromStandardName s))) = s
    rw [hnc, hns, ampDec_ampEnc s hs]

/-- Witness for C2_roundtrip_amended at a concrete string with a path
separator, an ampersand and an exclamation mark. -/
theorem C2_roundtrip_amended_witness :
    f0.toStandardPath (f0.fromStandardPath ("a&b/c!".toList)) = "a&b/c!".toList ∧
    f0.toStandardName (f0.fromStandardName ("a&b/c!".toList)) = "a&b/c!".toList :=
  C2_roundtrip_amended f0 _ (fun _ => rfl) (fun _ => rfl) (fun _ => rfl)
    (fun _ => rfl) (by decide)

/-- Claim C3, counterexample: a successful search whose result set is empty but
carries a non-empty continuation cursor makes the resolve report NotFound, not
the ambiguous/duplicate error the claim requires for every successful response
with a non-empty cursor. -/
theorem C3_ambiguity_cex :
    (getCLDAsset f0 (fun _ _ => (⟨[], "c".toList⟩, false)) "a/n".toList 0).1
      = .notFound := by
  rw [getCLDAsset]; decide

/-- Claim C3 as amended: whenever the remote search succeeds and returns at
least one asset together with a non-empty continuation cursor on the 1-result
query, the resolve fails with the duplicate-objects error and never returns an
asset record. -/
theorem C3_ambiguity_amended (f : Fs) (oracle : GoStr → Nat → SearchResp × Bool)
    (remote : GoStr) (resp : SearchResp)
    (h0 : oracle (searchExpr f remote) 0 = (resp, false))
    (hne : resp.assets ≠ []) (hc : resp.nextCursor ≠ []) :
    (getCLDAsset f oracle remote 0).1 = .duplicate := by
  rw [getCLDAsset, h0]
  simp [hne, hc]

/-- Witness for C3_ambiguity_amended: a concrete 1-asset response with a
leftover cursor resolves to the duplicate error. -/
theorem C3_ambiguity_amended_witness :
    (getCLDAsset f0
      (fun _ _ => (⟨[⟨"p".toList, 1, 0, "u".toList, "e".toList⟩], "c".toList⟩, false))
      "a/n".toList 0).1 = .duplicate :=
  C3_ambiguity_amended f0 _ ("a/n".toList) _ rfl (by decide) (by decide)

/-- Claim C4: with optimistic search enabled, a resolve whose every query
returns zero results performs exactly 4 search calls (the initial one plus 3
retries) separated by fixed 1-second sleeps and then reports NotFound; with
optimistic search disabled, a zero-result query reports NotFound after a single
call and no sleep. -/
theorem C4_optimistic_retry (f : Fs) (oracle : GoStr → Nat → SearchResp × Bool)
    (remote : GoStr) :
    (f.opt.optimisticSearch = true →
      (∀ i, i ≤ 3 → (oracle (searchExpr f remote) i).1.assets = []) →
      getCLDAsset f oracle remote 0 = (.notFound, 4, [1, 1, 1])) ∧
    (f.opt.optimisticSearch = false →
      (oracle (searchExpr f remote) 0).1.assets = [] →
      getCLDAsset f oracle remote 0 = (.notFound, 1, [])) := by
  constructor
  · intro hopt h
    rw [getCLDAsset, dif_pos ⟨hopt, h 0 (by norm_num), by norm_num⟩]
    rw [getCLDAsset, dif_pos ⟨hopt, h 1 (by norm_num), by norm_num⟩]
    rw [getCLDAsset, dif_pos ⟨hopt, h 2 (by norm_num), by norm_num⟩]
    rw [getCLDAsset, dif_neg (by simp)]
    simp [h 3 (by norm_num)]
  · intro hopt h0
    rw [getCLDAsset, dif_neg (by simp [hopt])]
    simp [h0]

/-- Witness for C4_optimistic_retry: all-empty concrete responses under both
configurations. -/
theorem C4_optimistic_retry_witness :
    getCLDAsset fOpt (fun _ _ => (⟨[], []⟩, false)) "a/n".toList 0
      = (.notFound, 4, [1, 1, 1]) ∧
    getCLDAsset f0 (fun _ _ => (⟨[], []⟩, false)) "a/n".toList 0
      = (.notFound, 1, []) :=
  ⟨(C4_optimistic_retry fOpt _ ("a/n".toList)).1 rfl (fun _ _ => rfl),
   (C4_optimistic_retry f0 _ ("a/n".toList)).2 rfl rfl⟩

/-- Claim C7, counterexample: a resolve whose search call reports a transport
error (err set, zero-value result) reports NotFound to the caller — the
transport failure is swallowed, contradicting the claimed propagation. -/
theorem C7_transport_cex :
    (getCLDAsset f0 (fun _ _ => (⟨[], []⟩, true)) "a/n".toList 0).1 = .notFound := by
  rw [getCLDAsset]; decide

/-- Claim C7 as amended: single-shot remote calls outside the two bounded retry
loops propagate a transport error immediately (shown for the directory
listing's sub-folder call), but a resolve whose remote search call returns a
transport error reports NotFound, not the transport failure. -/
theorem C7_transport_amended (f : Fs) (assetO : GoStr → GoStr → Option AssetResult)
    (oracle : GoStr → Nat → SearchResp × Bool) (now fuel : Nat) (dir remote : GoStr)
    (folderO : GoStr → GoStr → Option FolderResult)
    (hdown : ∀ pfx, folderO pfx [] = none)
    (hopt : f.opt.optimisticSearch = false)
    (herr : (oracle (searchExpr f remote) 0).2 = true) :
    cldList f folderO assetO now (fuel + 1) dir = .error .transport ∧
    (getCLDAsset f oracle remote 0).1 = .notFound := by
  constructor
  · rw [cldList, listFoldersLoop, hdown]
  · rw [getCLDAsset, dif_neg (by simp [hopt])]
    simp [herr]

/-- Witness for C7_transport_amended at concrete failing oracles. -/
theorem C7_transport_amended_witness :
    cldList f0 (fun _ _ => none) (fun _ _ => none) 0 5 "d".toList = .error .transport ∧
    (getCLDAsset f0 (fun _ _ => (⟨[], []⟩, true)) "x".toList 0).1 = .notFound :=
  C7_transport_amended f0 _ _ 0 4 ("d".toList) ("x".toList) _ (fun _ => rfl) rfl rfl

/-- Claim C8: a Put whose source declares size zero fails with the
cannot-upload-empty-files error and issues no upload call. -/
theorem C8_empty_upload (f : Fs) (src : SrcInfo) (updateMode : Bool)
    (upload : UploadParams → Option UploadResult) (hz : src.size = 0) :
    put f src updateMode upload = (.error .cantUploadEmptyFiles, []) := by
  rw [put, if_pos hz]

/-- Witness for C8_empty_upload at a concrete zero-size source. -/
theorem C8_empty_upload_witness :
    put f0 ⟨"a/n".toList, 0⟩ false (fun _ => some ⟨7, 1, [], [], []⟩)
      = (.error .cantUploadEmptyFiles, []) :=
  C8_empty_upload f0 _ false _ rfl

/-- When every attempt in range succeeds at the HTTP level but never satisfies
the break condition, the Open loop performs all remaining attempts, sleeps i
seconds after attempt i, and finally returns the 7th response's body with no
error. -/
theorem openAttempts_all_retry (oracle : Nat → Except Unit HttpResp) (count : Int)
    (resp : Nat → HttpResp)
    (hok : ∀ i, 1 ≤ i → i ≤ 7 → oracle i = .ok (resp i))
    (hnb : ∀ i, 1 ≤ i → i ≤ 7 → noBreak count (resp i)) :
    ∀ k i, i + k = 7 → 1 ≤ i →
      openAttempts oracle count i = ⟨.ok (resp 7).body, k + 1, List.range' i (k + 1)⟩ := by
  intro k
  induction k with
  | zero =>
    intro i h7 h1
    have hi : i = 7 := by omega
    subst hi
    rw [openAttempts]
    simp only [hok 7 (by norm_num) (le_refl 7)]
    rw [if_neg (hnb 7 (by norm_num) (le_refl 7)), dif_neg (by norm_num)]
    rfl
  | succ k ihk =>
    intro i h7 h1
    have hlt : i < 7 := by omega
    rw [openAttempts]
    simp only [hok i h1 (by omega)]
    rw [if_neg (hnb i h1 (by omega)), dif_pos hlt, ihk (i + 1) (by omega) (by omega)]
    rfl

/-- Claim C5, counterexample: when all 7 attempts return verifiable headers
whose content-length (5) differs from the requested count (10), Open does retry
with backoff 1..7 seconds, but then returns the 7th response's body with no
error — no range-verification failure is surfaced to the caller. -/
theorem C5_range_retry_cex :
    objOpen oDemo (fun i => .ok ⟨"bytes".toList, "5".toList, i⟩) 10
      = ⟨.ok 7, 7, [1, 2, 3, 4, 5, 6, 7]⟩ ∧
    (objOpen oDemo (fun i => .ok ⟨"bytes".toList, "5".toList, i⟩) 10).result
      ≠ .error () := by
  have h := openAttempts_all_retry (fun i => .ok ⟨"bytes".toList, "5".toList, i⟩) 10
    (fun i => ⟨"bytes".toList, "5".toList, i⟩) (fun _ _ _ => rfl)
    (fun i _ _ hB => absurd hB.2.2 (by show ¬atoi ("5".toList) = some 10; decide))
    6 1 (by norm_num) (by norm_num)
  exact ⟨h, by rw [show objOpen oDemo (fun i => .ok ⟨"bytes".toList, "5".toList, i⟩) 10
    = ⟨.ok 7, 7, [1, 2, 3, 4, 5, 6, 7]⟩ from h]; decide⟩

/-- Claim C5 as amended: on a ranged download whose every response declares
accept-ranges and a content-length that does not equal the requested byte
count, Open retries the whole request with linearly increasing backoff
(1s, 2s, ..., 7s) up to 7 attempts; when all 7 attempts fail verification the
call returns the final attempt's body with no error (the verification failure
is not surfaced). -/
theorem C5_range_retry_amended (o : Object) (oracle : Nat → Except Unit HttpResp)
    (count : Int) (resp : Nat → HttpResp)
    (hok : ∀ i, 1 ≤ i → i ≤ 7 → oracle i = .ok (resp i))
    (hhdr : ∀ i, 1 ≤ i → i ≤ 7 →
      (resp i).acceptRanges ≠ [] ∧ (resp i).contentLength ≠ [])
    (hmis : ∀ i, 1 ≤ i → i ≤ 7 → atoi (resp i).contentLength ≠ some count) :
    objOpen o oracle count = ⟨.ok (resp 7).body, 7, [1, 2, 3, 4, 5, 6, 7]⟩ :=
  openAttempts_all_retry oracle count resp hok
    (fun i h1 h7 hB => hmis i h1 h7 hB.2.2) 6 1 (by norm_num) (by norm_num)

/-- Witness for C5_range_retry_amended: every response reports length 7 against
a requested count of 99. -/
theorem C5_range_retry_amended_witness :
    objOpen oDemo (fun i => .ok ⟨"bytes".toList, "7".toList, i⟩) 99
      = ⟨.ok 7, 7, [1, 2, 3, 4, 5, 6, 7]⟩ :=
  C5_range_retry_amended oDemo _ 99 (fun i => ⟨"bytes".toList, "7".toList, i⟩)
    (fun _ _ _ => rfl)
    (fun _ _ _ => ⟨by show ("bytes".toList : GoStr) ≠ []; decide,
                   by show ("7".toList : GoStr) ≠ []; decide⟩)
    (fun _ _ _ => by show atoi ("7".toList) ≠ some 99; decide)

/-- Claim C6, counterexample: when the responses carry neither range header,
Open does not accept the first response as-is: it sleeps and retries on every
attempt (7 calls, sleeps 1..7 seconds) and only returns the last body once the
attempts are exhausted. -/
theorem C6_absent_headers_cex :
    objOpen oDemo (fun i => .ok ⟨[], [], i⟩) 10
      = ⟨.ok 7, 7, [1, 2, 3, 4, 5, 6, 7]⟩ ∧
    (objOpen oDemo (fun i => .ok ⟨[], [], i⟩) 10).calls ≠ 1 := by
  have h := openAttempts_all_retry (fun i => .ok ⟨[], [], i⟩) 10
    (fun i => ⟨[], [], i⟩) (fun _ _ _ => rfl)
    (fun i _ _ hB => hB.1 rfl) 6 1 (by norm_num) (by norm_num)
  exact ⟨h, by rw [show objOpen oDemo (fun i => .ok ⟨[], [], i⟩) 10
    = ⟨.ok 7, 7, [1, 2, 3, 4, 5, 6, 7]⟩ from h]; decide⟩

/-- Claim C6 as amended: a response that does not carry both range headers also
takes the sleep-and-retry path; when every attempt's response lacks a header,
Open performs all 7 attempts with backoff 1..7 seconds and then returns the
final attempt's body.  Header absence is treated like a mismatch for retry
purposes; it is accepted only by exhaustion. -/
theorem C6_absent_headers_amended (o : Object) (oracle : Nat → Except Unit HttpResp)
    (count : Int) (resp : Nat → HttpResp)
    (hok : ∀ i, 1 ≤ i → i ≤ 7 → oracle i = .ok (resp i))
    (hhdr : ∀ i, 1 ≤ i → i ≤ 7 →
      (resp i).acceptRanges = [] ∨ (resp i).contentLength = []) :
    objOpen o oracle count = ⟨.ok (resp 7).body, 7, [1, 2, 3, 4, 5, 6, 7]⟩ :=
  openAttempts_all_retry oracle count resp hok
    (fun i h1 h7 hB => (hhdr i h1 h7).elim (fun h => hB.1 h) (fun h => hB.2.1 h))
    6 1 (by norm_num) (by norm_num)

/-- Witness for C6_absent_headers_amended: responses whose content-length even
matches the requested count are still retried because accept-ranges is
missing. -/
theorem C6_absent_headers_amended_witness :
    objOpen oDemo (fun i => .ok ⟨[], "10".toList, i⟩) 10
      = ⟨.ok 7, 7, [1, 2, 3, 4, 5, 6, 7]⟩ :=
  C6_absent_headers_amended oDemo _ 10 (fun i => ⟨[], "10".toList, i⟩)
    (fun _ _ _ => rfl) (fun _ _ _ => Or.inl rfl)

/-! Path-algebra lemmas supporting the public-identifier claim. -/

/-- splitSlash never returns the empty list. -/
theorem splitSlash_ne_nil (p : GoStr) : splitSlash p ≠ [] :=
  List.splitOnP_ne_nil _ p

/-- joinSegs is a left inverse of splitSlash. -/
theorem joinSegs_splitSlash (p : GoStr) : joinSegs (splitSlash p) = p :=
  List.intercalate_splitOn p '/'

/-- Splitting a slash-free string yields the single segment. -/
theorem splitSlash_no_slash (n : GoStr) (h : '/' ∉ n) : splitSlash n = [n] :=
  List.splitOnP_eq_single _ _ (fun x hx hb => h (by rw [eq_of_beq hb] at hx; exact hx))

/-- Cons form of splitSlash. -/
theorem splitSlash_cons (c : Char) (p : GoStr) :
    splitSlash (c :: p) = if c = '/' then [] :: splitSlash p
                          else (splitSlash p).modifyHead (List.cons c) := by
  show List.splitOnP _ _ = _
  rw [List.splitOnP_cons]
  by_cases hc : c = '/'
  · rw [if_pos (by simp [hc]), if_pos hc]; rfl
  · rw [if_neg (by simp [hc]), if_neg hc]; rfl

/-- splitSlash distributes over an append around a slash. -/
theorem splitSlash_append (a b : GoStr) :
    splitSlash (a ++ '/' :: b) = splitSlash a ++ splitSlash b := by
  induction a with
  | nil => rw [List.nil_append, splitSlash_cons, if_pos rfl]; rfl
  | cons c a ih =>
    rw [List.cons_append, splitSlash_cons, splitSlash_cons, ih]
    by_cases hc : c = '/'
    · rw [if_pos hc, if_pos hc]; rfl
    · rw [if_neg hc, if_neg hc]
      obtain ⟨s, ss, hss⟩ := List.exists_cons_of_ne_nil (splitSlash_ne_nil a)
      rw [hss]; rfl

/-- path.Clean's element processing pushes a plain segment onto the stack. -/
theorem cleanStep_plain (rooted : Bool) (st : List GoStr) (s : GoStr)
    (h : plainSeg s) : cleanStep rooted st s = s :: st := by
  simp only [cleanStep]
  rw [if_neg (not_or.mpr ⟨h.1, h.2.1⟩), if_neg h.2.2]

/-- Folding path.Clean's element processing over plain segments just reverses
them onto the accumulator. -/
theorem foldl_cleanStep_plain (rooted : Bool) (segs : List GoStr) (acc : List GoStr)
    (h : ∀ s ∈ segs, plainSeg s) :
    segs.foldl (cleanStep rooted) acc = segs.reverse ++ acc := by
  induction segs generalizing acc with
  | nil => rfl
  | cons s rest ih =>
    rw [List.foldl_cons, cleanStep_plain rooted acc s (h s (List.mem_cons_self s rest)),
        ih (s :: acc) (fun t ht => h t (List.mem_cons_of_mem s ht))]
    simp

/-- Segment normalisation is the identity on plain segments. -/
theorem normSegs_plain (rooted : Bool) (segs : List GoStr)
    (h : ∀ s ∈ segs, plainSeg s) : normSegs rooted segs = segs := by
  rw [normSegs, foldl_cleanStep_plain rooted segs [] h]
  simp

/-- A path all of whose segments are plain is nonempty and not rooted. -/
theorem plainRel_shape (p : GoStr) (h : plainRel p) : p ≠ [] ∧ p.head? ≠ some '/' := by
  constructor
  · intro hp
    subst hp
    exact (h [] (by simp [splitSlash])).1 rfl
  · intro hh
    cases p with
    | nil => simp at hh
    | cons c rest =>
      have hc : c = '/' := by simpa using hh
      subst hc
      have : ([] : GoStr) ∈ splitSlash ('/' :: rest) := by
        rw [splitSlash_cons, if_pos rfl]
        exact List.mem_cons_self _ _
      exact (h [] this).1 rfl

/-- path.Clean is the identity on a cleaned relative folder joined to a plain,
slash-free leaf. -/
theorem pathClean_plain_append (fo n : GoStr) (hfo : plainRel fo) (hn : plainSeg n)
    (hns : '/' ∉ n) : pathClean (fo ++ '/' :: n) = fo ++ '/' :: n := by
  obtain ⟨hne, hhead⟩ := plainRel_shape fo hfo
  have hsplit : splitSlash (fo ++ '/' :: n) = splitSlash fo ++ [n] := by
    rw [splitSlash_append, splitSlash_no_slash n hns]
  have hall : ∀ s ∈ splitSlash fo ++ [n], plainSeg s := by
    intro s hs
    rcases List.mem_append.mp hs with h1 | h2
    · exact hfo s h1
    · rw [List.mem_singleton.mp h2]; exact hn
  have hpne : (fo ++ '/' :: n) ≠ [] := by simp
  have hph : ¬((fo ++ '/' :: n).head? = some '/') := by
    cases fo with
    | nil => exact absurd rfl hne
    | cons c cs => simpa using hhead
  simp only [pathClean]
  rw [if_neg hpne, if_neg hph, hsplit, normSegs_plain _ _ hall, ← hsplit,
      joinSegs_splitSlash, if_neg hpne]

/-- path.Join of a cleaned relative folder and a plain slash-free leaf is the
slash-separated concatenation. -/
theorem pathJoin_plain (fo n : GoStr) (hfo : plainRel fo) (hn : plainSeg n)
    (hns : '/' ∉ n) : pathJoin fo n = fo ++ '/' :: n := by
  simp only [pathJoin]
  rw [if_neg (plainRel_shape fo hfo).1, if_neg hn.1,
      pathClean_plain_append fo n hfo hn hns]

/-- Claim C9: the public identifier Put sends is path.Join of the encoded
parent folder and the encoded leaf name, so it is determined by those two
values (same encoded coordinates give the same identifier, for any update
mode); for cleaned relative encoded folders and a plain slash-free encoded
leaf, different folders with the same leaf give different identifiers; and a
Put with nonzero size issues exactly one upload call carrying these params. -/
theorem C9_public_id (f : Fs) (s1 s2 : SrcInfo) (m1 m2 : Bool) :
    ((putParams f s1 m1).publicID
        = pathJoin (f.fromStandardFullPath (cldPathDir s1.remote))
            (f.fromStandardName (pathBase s1.remote))) ∧
    (f.fromStandardFullPath (cldPathDir s1.remote)
        = f.fromStandardFullPath (cldPathDir s2.remote) →
     f.fromStandardName (pathBase s1.remote)
        = f.fromStandardName (pathBase s2.remote) →
     (putParams f s1 m1).publicID = (putParams f s2 m2).publicID) ∧
    (plainRel (f.fromStandardFullPath (cldPathDir s1.remote)) →
     plainRel (f.fromStandardFullPath (cldPathDir s2.remote)) →
     plainSeg (f.fromStandardName (pathBase s1.remote)) →
     '/' ∉ f.fromStandardName (pathBase s1.remote) →
     f.fromStandardName (pathBase s1.remote)
        = f.fromStandardName (pathBase s2.remote) →
     f.fromStandardFullPath (cldPathDir s1.remote)
        ≠ f.fromStandardFullPath (cldPathDir s2.remote) →
     (putParams f s1 m1).publicID ≠ (putParams f s2 m2).publicID) ∧
    (∀ upload, s1.size ≠ 0 → (put f s1 m1 upload).2 = [putParams f s1 m1]) := by
  refine ⟨rfl, ?_, ?_, ?_⟩
  · intro hf hn
    simp only [putParams]
    rw [hf, hn]
  · intro hr1 hr2 hseg hsl hn hne heq
    simp only [putParams] at heq
    rw [pathJoin_plain _ _ hr1 hseg hsl, ← hn,
        pathJoin_plain _ _ hr2 hseg hsl] at heq
    exact hne (List.append_cancel_right heq)
  · intro upload hsz
    rcases hu : upload (putParams f s1 m1) with _ | res
    · simp [put, hsz, hu]
    · by_cases he : res.errorMessage = [] <;> simp [put, hsz, hu, he]

/-- Witness for C9_public_id: uploads of a/n target the same identifier under
both modes, a/n and b/n target different identifiers, and a nonzero-size Put
sends exactly one upload call. -/
theorem C9_public_id_witness :
    (putParams f0 ⟨"a/n".toList, 1⟩ false).publicID
      = (putParams f0 ⟨"a/n".toList, 2⟩ true).publicID ∧
    (putParams f0 ⟨"a/n".toList, 1⟩ false).publicID
      ≠ (putParams f0 ⟨"b/n".toList, 1⟩ false).publicID ∧
    (put f0 ⟨"a/n".toList, 1⟩ false (fun _ => none)).2
      = [putParams f0 ⟨"a/n".toList, 1⟩ false] :=
  ⟨(C9_public_id f0 ⟨"a/n".toList, 1⟩ ⟨"a/n".toList, 2⟩ false true).2.1 rfl rfl,
   (C9_public_id f0 ⟨"a/n".toList, 1⟩ ⟨"b/n".toList, 1⟩ false false).2.2.1
     (by decide) (by decide) (by decide) (by decide) (by decide) (by decide),
   (C9_public_id f0 ⟨"a/n".toList, 1⟩ ⟨"a/n".toList, 1⟩ false false).2.2.2
     (fun _ => none) (by decide)⟩

/-- Claim C10: when the delegated Put fails, Update returns that error and the
object is unchanged in every field; when it succeeds, only size, modification
time, URL and hash are replaced — the remote path and filesystem reference are
kept — and the modification time becomes the current time, not the
remote-returned creation time. -/
theorem C10_update_frame (o : Object) (now : Nat) (src : SrcInfo)
    (upload : UploadParams → Option UploadResult) :
    (∀ e log, put o.fsRef ⟨o.remote, src.size⟩ true upload = (.error e, log) →
      objUpdate o now src upload = (o, some e)) ∧
    (∀ uo log, put o.fsRef ⟨o.remote, src.size⟩ true upload = (.ok uo, log) →
      objUpdate o now src upload =
        ({ fsRef := o.fsRef, remote := o.remote, size := uo.size, modTime := now,
           url := uo.url, md5sum := uo.md5sum }, none)) := by
  constructor
  · intro e log h
    simp only [objUpdate, h]
  · intro uo log h
    simp only [objUpdate, h]

/-- Witness for C10_update_frame: a successful update replaces exactly
size/time/URL/hash with the time set to now (999, not the remote 100), and a
failing update (empty upload) leaves the object untouched. -/
theorem C10_update_frame_witness :
    objUpdate oDemo 999 ⟨"zzz".toList, 5⟩
        (fun _ => some ⟨7, 100, "h".toList, "e".toList, []⟩)
      = ({ fsRef := f0, remote := "a/n".toList, size := 7, modTime := 999,
           url := "h".toList, md5sum := "e".toList }, none) ∧
    objUpdate oDemo 999 ⟨"zzz".toList, 0⟩
        (fun _ => some ⟨7, 100, "h".toList, "e".toList, []⟩)
      = (oDemo, some .cantUploadEmptyFiles) :=
  ⟨(C10_update_frame oDemo 999 ⟨"zzz".toList, 5⟩ _).2
     ⟨f0, "a/n".toList, (7 : Int), 100, "h".toList, "e".toList⟩
     [putParams f0 ⟨"a/n".toList, 5⟩ true] rfl,
   (C10_update_frame oDemo 999 ⟨"zzz".toList, 0⟩ _).1 .cantUploadEmptyFiles [] rfl⟩

/-- Claim C1: the code at the claim's failing input.  With a 2-page folder
listing (cursor chain: empty → c1 → done) and an asset endpoint whose first
page lives at the empty initial cursor, List fails with a transport error
instead of returning the two folders plus the asset: the Go nextCursor
variable still holds the folder listing's last cursor c1 when the asset loop
starts, so the first asset request is issued at c1, not at the empty initial
cursor from which the claim requires the asset listing's own chain to start. -/
theorem C1_list_stale_cursor :
    cldList f0
      (fun folder cursor =>
        if folder = "d/".toList ∧ cursor = [] then
          some ⟨[⟨"d/a".toList⟩], [], "c1".toList⟩
        else if folder = "d/".toList ∧ cursor = "c1".toList then
          some ⟨[⟨"d/b".toList⟩], [], []⟩
        else none)
      (fun folder cursor =>
        if folder = "d/".toList ∧ cursor = [] then
          some ⟨[⟨"x".toList, 3, 0, "u".toList⟩], []⟩
        else none)
      0 9 "d".toList = .error .transport := by
  rfl
